import Mathlib

/-!
Verification of the fileskadis masking subsystem.

Shallow embedding of the page-rendering and region-redaction pipeline:
the Region value type, the Masker (apply_masks, redact, preview_page),
the interactive session handlers of the UI application
(handle_image_click, change_mask_page), and the page-range parser of the
separator module (parse_page_range).

External collaborators (pdfium page rendering, the PIL Gaussian blur
filter, ImageDraw outline/label/marker overlay rendering, file-path
validation and the final PDF encode) are modelled as abstract functions
passed in as parameters; everything the repository itself computes is
translated directly from the source.
-/

namespace Fileskadis

/-- Pixel value of a raster, as PIL getpixel reports it on an RGB image. -/
structure Color where
  r : Nat
  g : Nat
  b : Nat
deriving DecidableEq, Repr

/-- PIL named color "black". -/
def colorBlack : Color := ⟨0, 0, 0⟩

/-- PIL named color "white". -/
def colorWhite : Color := ⟨255, 255, 255⟩

/-- Shallow model of a PIL Image: dimensions, color mode tag, and the
pixel contents as a function of (x, y) coordinates. -/
structure PILImage where
  width : Nat
  height : Nat
  mode : String
  pixel : Nat → Nat → Color

/-- Model of PIL Image.copy: a value copy of the raster. -/
def PILImage.copy (img : PILImage) : PILImage := img

/-- A (left, top, right, bottom) box tuple in pixel coordinates. -/
structure Box where
  left : ℤ
  top : ℤ
  right : ℤ
  bottom : ℤ
deriving DecidableEq, Repr

/-- Model of PIL ImageDraw.rectangle with a fill color: fills every pixel
of the box, both endpoints included (documented PIL behavior). -/
def PILImage.fillRect (img : PILImage) (b : Box) (c : Color) : PILImage :=
  { img with pixel := fun px py =>
      if b.left ≤ (px : ℤ) ∧ (px : ℤ) ≤ b.right ∧ b.top ≤ (py : ℤ) ∧ (py : ℤ) ≤ b.bottom
      then c else img.pixel px py }

/-- Model of PIL Image.crop on a box with nonnegative clamped corners. -/
def PILImage.crop (img : PILImage) (b : Box) : PILImage :=
  { width := (b.right - b.left).toNat
    height := (b.bottom - b.top).toNat
    mode := img.mode
    pixel := fun px py => img.pixel (px + b.left.toNat) (py + b.top.toNat) }

/-- Model of PIL Image.paste of src into dst at the box position; the
target keeps its own dimensions and mode. -/
def PILImage.paste (dst src : PILImage) (b : Box) : PILImage :=
  { dst with pixel := fun px py =>
      if b.left ≤ (px : ℤ) ∧ (px : ℤ) < b.left + src.width
          ∧ b.top ≤ (py : ℤ) ∧ (py : ℤ) < b.top + src.height
      then src.pixel (px - b.left.toNat) (py - b.top.toNat)
      else dst.pixel px py }

/-- Translation of the Region dataclass of core/masker.py: a rectangular
region for masking, in image pixel coordinates. -/
structure Region where
  x : ℤ
  y : ℤ
  width : ℤ
  height : ℤ
deriving DecidableEq, Repr

/-- Translation of the Region.box property: (left, top, right, bottom). -/
def Region.box (r : Region) : Box :=
  ⟨r.x, r.y, r.x + r.width, r.y + r.height⟩

/-- Translation of the MaskType literal enumeration. -/
inductive MaskType where
  | blur
  | black
  | white
deriving DecidableEq, Repr

/-- A Python exception value; the core raises only ValueError. -/
inductive PyErr where
  | valueError : String → PyErr
deriving DecidableEq, Repr

/-- The message carried by an exception (str(e) in Python). -/
def PyErr.message : PyErr → String
  | .valueError s => s

/-- Translation of the Masker class fields, with the source defaults. -/
structure Masker where
  render_scale : ℚ := 2
  blur_radius : ℤ := 30

/-- Abstract model of an open pdfium document: the page count and the
external page-rendering collaborator (render page index at a scale). -/
structure PdfDocument where
  pageCount : Nat
  render : Nat → ℚ → PILImage

/-- The box clamp of Masker.apply_masks, lines 130 to 135 of
core/masker.py: clamp to the source image canvas. -/
def clampBox (img : PILImage) (b : Box) : Box :=
  ⟨max 0 b.left, max 0 b.top, min (img.width : ℤ) b.right, min (img.height : ℤ) b.bottom⟩

/-- The fill color chosen on line 146 of core/masker.py: black when the
mask type is black, white otherwise. -/
def maskFillColor (mask_type : MaskType) : Color :=
  if mask_type = MaskType.black then colorBlack else colorWhite

/-- The region loop of Masker.apply_masks: processes the regions in
order against the result accumulator, clamping each box against the
input image, skipping degenerate boxes, and either pasting a blurred
crop or filling with the flat color.  The Gaussian blur filter is the
external collaborator blur (radius and image to blurred image). -/
def Masker.applyMasksGo (m : Masker) (blur : ℤ → PILImage → PILImage)
    (img : PILImage) (mask_type : MaskType) :
    List Region → PILImage → PILImage
  | [], result => result
  | region :: rest, result =>
    let b := clampBox img region.box
    if b.right ≤ b.left ∨ b.bottom ≤ b.top then
      m.applyMasksGo blur img mask_type rest result
    else if mask_type = MaskType.blur then
      let cropped := result.crop b
      let blurred := blur m.blur_radius cropped
      m.applyMasksGo blur img mask_type rest (result.paste blurred b)
    else
      m.applyMasksGo blur img mask_type rest (result.fillRect b (maskFillColor mask_type))

/-- Translation of Masker._apply_masks (core/masker.py lines 119 to
149): copy the input raster and run the region loop on the copy. -/
def Masker.apply_masks (m : Masker) (blur : ℤ → PILImage → PILImage)
    (img : PILImage) (regions : List Region) (mask_type : MaskType) : PILImage :=
  m.applyMasksGo blur img mask_type regions img.copy

/-- The page loop of Masker.redact (core/masker.py lines 78 to 88):
for every page index below the page count, render the page at the
configured render scale and, when the 1-indexed page number is a key of
page_regions, apply the masks; collect the rasters in page order. -/
def Masker.redactPages (m : Masker) (blur : ℤ → PILImage → PILImage)
    (pdf : PdfDocument) (page_regions : ℤ → Option (List Region))
    (mask_type : MaskType) : List PILImage :=
  (List.range pdf.pageCount).map (fun page_idx =>
    let img := pdf.render page_idx m.render_scale
    match page_regions ((page_idx : ℤ) + 1) with
    | some regions => m.apply_masks blur img regions mask_type
    | none => img)

/-- Translation of Masker.redact (core/masker.py lines 41 to 94),
returning the raster sequence handed to the PDF encoder.  Path
validation, the RGB conversion and the actual PDF write of
_images_to_pdf are external; the ValueError that _images_to_pdf raises
on an empty raster list (lines 153 to 154) is kept, since it is the
error path of redact on a zero-page document. -/
def Masker.redact (m : Masker) (blur : ℤ → PILImage → PILImage)
    (pdf : PdfDocument) (page_regions : ℤ → Option (List Region))
    (mask_type : MaskType) : Except PyErr (List PILImage) :=
  let page_images := m.redactPages blur pdf page_regions mask_type
  if page_images.isEmpty then Except.error (PyErr.valueError "No images to convert")
  else Except.ok page_images

/-- Model of Python int() truncation applied to an exact rational:
truncation toward zero of num/den. -/
def pyTrunc (q : ℚ) : ℤ := q.num.tdiv q.den

/-- The region rescale of Masker.preview_page, lines 203 to 211 of
core/masker.py. -/
def scaleRegion (scale : ℚ) (r : Region) : Region :=
  ⟨pyTrunc ((r.x : ℚ) * scale), pyTrunc ((r.y : ℚ) * scale),
    pyTrunc ((r.width : ℚ) * scale), pyTrunc ((r.height : ℚ) * scale)⟩

/-- Translation of Masker.preview_page (core/masker.py lines 170 to
214): bounds check on the 1-indexed page number, render at
render_scale * scale, and mask with the rescaled regions when the
regions argument is truthy (not None and nonempty). -/
def Masker.preview_page (m : Masker) (blur : ℤ → PILImage → PILImage)
    (pdf : PdfDocument) (page_num : ℤ) (regions : Option (List Region))
    (mask_type : MaskType) (scale : ℚ) : Except PyErr PILImage :=
  if page_num < 1 ∨ (pdf.pageCount : ℤ) < page_num then
    Except.error (PyErr.valueError ("Page " ++ toString page_num ++ " out of range"))
  else
    let img := pdf.render (page_num - 1).toNat (m.render_scale * scale)
    match regions with
    | some rs =>
      if rs.isEmpty then Except.ok img
      else Except.ok (m.apply_masks blur img (rs.map (scaleRegion scale)) mask_type)
    | none => Except.ok img

/-- Session state of FileskadisApp (ui/app.py): current page, selected
regions, cached base raster of the current page, and the pending first
corner of the two-click rectangle protocol. -/
structure AppState where
  current_page : ℤ
  regions : List Region
  base_image : Option PILImage
  click_start : Option (ℤ × ℤ)

/-- Translation of FileskadisApp._format_regions_text. -/
def format_regions_text (regions : List Region) : String :=
  if regions.isEmpty then ""
  else
    String.intercalate "\n" (regions.enum.map (fun p =>
      toString (p.1 + 1) ++ ". (" ++ toString p.2.x ++ ", " ++ toString p.2.y
        ++ ") → " ++ toString p.2.width ++ "×" ++ toString p.2.height))

/-- Translation of FileskadisApp._draw_regions_on_image (ui/app.py lines
116 to 136).  The geometric mask pass reuses Masker.apply_masks on a
copy of the base raster; the ImageDraw outline rectangles, index labels
and pending-corner marker are external glyph rendering, modelled by the
overlay collaborator applied to the masked raster, the regions and the
pending corner. -/
def draw_regions_on_image (masker : Masker) (blur : ℤ → PILImage → PILImage)
    (overlay : PILImage → List Region → Option (ℤ × ℤ) → PILImage)
    (st : AppState) (mask_type : MaskType) : Option PILImage :=
  match st.base_image with
  | none => none
  | some base =>
    let img := base.copy
    let img := if st.regions.isEmpty then img
      else masker.apply_masks blur img st.regions mask_type
    some (overlay img st.regions st.click_start)

/-- Translation of FileskadisApp.handle_image_click (ui/app.py lines 147
to 177): the two-click rectangle protocol.  The first click records the
pending corner; the second computes the min-corner and absolute
width/height, appends the region when both exceed 5 pixels, and clears
the pending corner in every case. -/
def handle_image_click (masker : Masker) (blur : ℤ → PILImage → PILImage)
    (overlay : PILImage → List Region → Option (ℤ × ℤ) → PILImage)
    (st : AppState) (pdf_file : Option PdfDocument) (mask_type : MaskType)
    (evt : ℤ × ℤ) : AppState × (Option PILImage × String × String) :=
  if pdf_file.isNone ∨ st.base_image.isNone then
    (st, (none, "Load a PDF first", ""))
  else
    let x := evt.1
    let y := evt.2
    match st.click_start with
    | none =>
      let st1 := { st with click_start := some (x, y) }
      (st1, (draw_regions_on_image masker blur overlay st1 mask_type,
        "First corner set at (" ++ toString x ++ ", " ++ toString y
          ++ "). Click second corner.",
        format_regions_text st1.regions))
    | some (x1, y1) =>
      let left := min x1 x
      let top := min y1 y
      let width := |x - x1|
      let height := |y - y1|
      let st1 := { st with
        regions := if 5 < width ∧ 5 < height
          then st.regions ++ [Region.mk left top width height]
          else st.regions,
        click_start := none }
      (st1, (draw_regions_on_image masker blur overlay st1 mask_type,
        toString st1.regions.length ++ " region(s) selected",
        format_regions_text st1.regions))

/-- Translation of FileskadisApp.change_mask_page (ui/app.py lines 97 to
114).  Note the order of operations in the source: the current page,
regions and pending corner are reset before the try block that renders
the preview; when the preview raises (page out of range) the except
branch returns an error message with the reset state left in place. -/
def change_mask_page (masker : Masker) (blur : ℤ → PILImage → PILImage)
    (st : AppState) (pdf_file : Option PdfDocument) (page_num : ℤ) :
    AppState × (Option PILImage × String × String) :=
  match pdf_file with
  | none => (st, (none, "No PDF", ""))
  | some pdf =>
    let st1 := { st with current_page := page_num, regions := [], click_start := none }
    match masker.preview_page blur pdf st1.current_page none MaskType.blur 1 with
    | Except.error e => (st1, (none, "Error: " ++ e.message, ""))
    | Except.ok img =>
      ({ st1 with base_image := some img },
        (some img,
          "Page " ++ toString st1.current_page ++ "/" ++ toString pdf.pageCount
            ++ " — Click to draw rectangles", ""))

/-- The whitespace class of Python str.strip and of the regex class
backslash-s, restricted to ASCII. -/
def pyIsSpace (c : Char) : Bool :=
  c == ' ' || c == '\t' || c == '\n' || c == '\r' || c == '\x0b' || c == '\x0c'

/-- Model of Python str.strip(): drop leading and trailing whitespace. -/
def pyStrip (cs : List Char) : List Char :=
  ((cs.dropWhile pyIsSpace).reverse.dropWhile pyIsSpace).reverse

/-- Model of Python str.split on a comma, with an accumulator for the
current piece. -/
def splitCommaGo : List Char → List Char → List (List Char)
  | [], acc => [acc.reverse]
  | c :: cs, acc =>
    if c = ',' then acc.reverse :: splitCommaGo cs [] else splitCommaGo cs (c :: acc)

/-- Value of a decimal digit list, most significant first. -/
def digitsToNat (ds : List Char) : Nat :=
  ds.foldl (fun n c => n * 10 + (c.toNat - Char.toNat '0')) 0

/-- Model of re.match with pattern digits, optional spaces, a dash,
optional spaces, digits (the range pattern of parse_page_range):
re.match anchors at the start only, so trailing garbage is ignored. -/
def matchRange (cs : List Char) : Option (Nat × Nat) :=
  let d1 := cs.takeWhile Char.isDigit
  let rest1 := cs.dropWhile Char.isDigit
  if d1.isEmpty then none
  else
    match rest1.dropWhile pyIsSpace with
    | '-' :: rest2 =>
      let rest3 := rest2.dropWhile pyIsSpace
      let d2 := rest3.takeWhile Char.isDigit
      if d2.isEmpty then none else some (digitsToNat d1, digitsToNat d2)
    | _ => none

/-- Digit tail of a Python integer literal: decimal digits with single
underscores allowed between digits. -/
def pyDigitsGo : List Char → Nat → Option Nat
  | [], n => some n
  | '_' :: cs, n =>
    match cs with
    | [] => none
    | c :: cs2 =>
      if c.isDigit then pyDigitsGo cs2 (n * 10 + (c.toNat - Char.toNat '0')) else none
  | c :: cs, n =>
    if c.isDigit then pyDigitsGo cs (n * 10 + (c.toNat - Char.toNat '0')) else none

/-- Unsigned part of a Python integer literal: at least one digit. -/
def pyParseDigits (cs : List Char) : Option Nat :=
  match cs with
  | [] => none
  | c :: rest =>
    if c.isDigit then pyDigitsGo rest (c.toNat - Char.toNat '0') else none

/-- Model of Python int(str) on an already-stripped token: optional
sign, then ASCII decimal digits with underscore separators; none models
the ValueError on malformed input. -/
def pyInt (cs : List Char) : Option ℤ :=
  match cs with
  | '+' :: rest => (pyParseDigits rest).map (fun n => (n : ℤ))
  | '-' :: rest => (pyParseDigits rest).map (fun n => -(n : ℤ))
  | _ => (pyParseDigits cs).map (fun n => (n : ℤ))

/-- Exception-explicit form of int(part): ValueError on malformed
input, as raised inside the try block of parse_page_range. -/
def pyIntExc (cs : List Char) : Except PyErr ℤ :=
  match pyInt cs with
  | some n => Except.ok n
  | none => Except.error (PyErr.valueError "invalid literal for int")

/-- The inner loop of the range branch of parse_page_range: the pages
start to stop inclusive that lie in 1 to max_pages, shifted to 0-indexed. -/
def rangePages (start stop : Nat) (max_pages : ℤ) : List ℤ :=
  (((List.range (stop + 1 - start)).map (fun j => ((start + j : Nat) : ℤ))).filter
    (fun i => decide (1 ≤ i ∧ i ≤ max_pages))).map (fun i => i - 1)

/-- Insertion into a strictly ascending list, dropping duplicates; the
fold of this over the collected pages models sorted(set(pages)). -/
def insertAsc (x : ℤ) : List ℤ → List ℤ
  | [] => [x]
  | y :: ys =>
    if x < y then x :: y :: ys
    else if x = y then y :: ys
    else y :: insertAsc x ys

/-- The token loop of parse_page_range (core/separator.py lines 29 to
43): tokens containing a dash go through the range regex, other tokens
through int() with the ValueError swallowed; invalid and out-of-range
values are dropped. -/
def collectPages (parts : List (List Char)) (max_pages : ℤ) : List ℤ :=
  parts.foldl (fun acc part =>
    if part.contains '-' then
      match matchRange part with
      | some (s, e) => acc ++ rangePages s e max_pages
      | none => acc
    else
      match pyInt part with
      | some page => if 1 ≤ page ∧ page ≤ max_pages then acc ++ [page - 1] else acc
      | none => acc) []

/-- Translation of parse_page_range (core/separator.py lines 15 to 45):
split on commas, strip, drop empty tokens, collect the selected pages
and return them sorted and deduplicated (sorted(set(pages))). -/
def parse_page_range (range_str : String) (max_pages : ℤ) : List ℤ :=
  let parts := ((splitCommaGo range_str.data []).map pyStrip).filter (fun p => !p.isEmpty)
  (collectPages parts max_pages).foldl (fun l x => insertAsc x l) []

/-- Exception-explicit model of parse_page_range: the only operation of
the source that can raise is int(part), lifted here into Except, with
the try/except ValueError of lines 38 to 43 modelled by the explicit
error branch that continues with the accumulator unchanged. -/
def parse_page_range_exc (range_str : String) (max_pages : ℤ) :
    Except PyErr (List ℤ) := do
  let parts := ((splitCommaGo range_str.data []).map pyStrip).filter (fun p => !p.isEmpty)
  let collected ← parts.foldlM (fun acc part =>
    if part.contains '-' then
      pure (match matchRange part with
        | some (s, e) => acc ++ rangePages s e max_pages
        | none => acc)
    else
      match pyIntExc part with
      | Except.ok page =>
        pure (if 1 ≤ page ∧ page ≤ max_pages then acc ++ [page - 1] else acc)
      | Except.error (PyErr.valueError _) => pure acc) ([] : List ℤ)
  pure (collected.foldl (fun l x => insertAsc x l) [])

/-- Strict interior of a (left, top, right, bottom) box. -/
def strictlyInside (b : Box) (px py : Nat) : Prop :=
  b.left < (px : ℤ) ∧ (px : ℤ) < b.right ∧ b.top < (py : ℤ) ∧ (py : ℤ) < b.bottom

/-- Strict exterior of a (left, top, right, bottom) box. -/
def strictlyOutside (b : Box) (px py : Nat) : Prop :=
  (px : ℤ) < b.left ∨ b.right < (px : ℤ) ∨ (py : ℤ) < b.top ∨ b.bottom < (py : ℤ)

instance (b : Box) (px py : Nat) : Decidable (strictlyInside b px py) := by
  unfold strictlyInside; exact inferInstance

instance (b : Box) (px py : Nat) : Decidable (strictlyOutside b px py) := by
  unfold strictlyOutside; exact inferInstance

/-- A trivial stand-in for the external Gaussian blur collaborator,
used only to instantiate universally quantified statements. -/
def blurId : ℤ → PILImage → PILImage := fun _ img => img

/-- A trivial stand-in for the external overlay-drawing collaborator. -/
def overlayId : PILImage → List Region → Option (ℤ × ℤ) → PILImage :=
  fun img _ _ => img

/-- A small concrete raster used to instantiate theorems. -/
def testImg : PILImage := ⟨4, 4, "RGB", fun px py => ⟨px, py, 7⟩⟩

/-- A concrete one-page document whose page renders to testImg. -/
def testPdf : PdfDocument := ⟨1, fun _ _ => testImg⟩

/-- A Masker with the source defaults (render_scale 2, blur_radius 30). -/
def testMasker : Masker := {}

lemma mem_insertAsc {x b : ℤ} : ∀ {l : List ℤ}, b ∈ insertAsc x l → b = x ∨ b ∈ l
  | [], h => by
    simp only [insertAsc, List.mem_singleton] at h
    exact Or.inl h
  | y :: ys, h => by
    simp only [insertAsc] at h
    by_cases h1 : x < y
    · rw [if_pos h1] at h
      rcases List.mem_cons.mp h with h2 | h2
      · exact Or.inl h2
      · exact Or.inr h2
    · rw [if_neg h1] at h
      by_cases h2 : x = y
      · rw [if_pos h2] at h
        exact Or.inr h
      · rw [if_neg h2] at h
        rcases List.mem_cons.mp h with h3 | h3
        · exact Or.inr (List.mem_cons.mpr (Or.inl h3))
        · rcases mem_insertAsc h3 with h4 | h4
          · exact Or.inl h4
          · exact Or.inr (List.mem_cons.mpr (Or.inr h4))

lemma insertAsc_sorted (x : ℤ) :
    ∀ {l : List ℤ}, l.Sorted (· < ·) → (insertAsc x l).Sorted (· < ·)
  | [], _ => by simp [insertAsc]
  | y :: ys, h => by
    rcases List.sorted_cons.mp h with ⟨hy, hys⟩
    simp only [insertAsc]
    by_cases h1 : x < y
    · rw [if_pos h1]
      refine List.sorted_cons.mpr ⟨?_, h⟩
      intro b hb
      rcases List.mem_cons.mp hb with rfl | hb
      · exact h1
      · exact lt_trans h1 (hy b hb)
    · rw [if_neg h1]
      by_cases h2 : x = y
      · rw [if_pos h2]; exact h
      · rw [if_neg h2]
        refine List.sorted_cons.mpr ⟨?_, insertAsc_sorted x hys⟩
        intro b hb
        rcases mem_insertAsc hb with rfl | hb
        · omega
        · exact hy b hb

lemma foldl_insertAsc_sorted :
    ∀ (xs : List ℤ) (acc : List ℤ), acc.Sorted (· < ·) →
      (xs.foldl (fun l x => insertAsc x l) acc).Sorted (· < ·)
  | [], _, h => h
  | x :: xs, acc, h => foldl_insertAsc_sorted xs (insertAsc x acc) (insertAsc_sorted x h)

/-- C5: parse_page_range silently drops out-of-range and malformed
tokens, collapses duplicates, and returns a strictly ascending
deduplicated list of 0-indexed pages; the concrete examples of the
claim evaluate as stated. -/
theorem parse_page_range_spec :
    (∀ (s : String) (max_pages : ℤ),
      (parse_page_range s max_pages).Sorted (· < ·)) ∧
    parse_page_range "1-3, 5, 7-10" 10 = [0, 1, 2, 4, 6, 7, 8, 9] ∧
    parse_page_range "1, 100" 10 = [0] ∧
    parse_page_range "1, abc, 3" 10 = [0, 2] ∧
    parse_page_range "" 10 = [] ∧
    parse_page_range "1,1,1-2" 10 = [0, 1] := by
  refine ⟨fun s m => ?_, by decide, by decide, by decide, by decide, by decide⟩
  exact foldl_insertAsc_sorted _ [] List.sorted_nil

lemma collectPages_exc (max_pages : ℤ) :
    ∀ (parts : List (List Char)) (acc : List ℤ),
      (parts.foldlM (fun acc part =>
        if part.contains '-' then
          pure (match matchRange part with
            | some (s, e) => acc ++ rangePages s e max_pages
            | none => acc)
        else
          match pyIntExc part with
          | Except.ok page =>
            pure (if 1 ≤ page ∧ page ≤ max_pages then acc ++ [page - 1] else acc)
          | Except.error (PyErr.valueError _) => pure acc) acc :
          Except PyErr (List ℤ)) =
      Except.ok (parts.foldl (fun acc part =>
        if part.contains '-' then
          match matchRange part with
          | some (s, e) => acc ++ rangePages s e max_pages
          | none => acc
        else
          match pyInt part with
          | some page => if 1 ≤ page ∧ page ≤ max_pages then acc ++ [page - 1] else acc
          | none => acc) acc)
  | [], acc => rfl
  | part :: parts, acc => by
    rw [List.foldlM_cons, List.foldl_cons]
    by_cases hc : part.contains '-'
    · rw [if_pos hc, if_pos hc]
      rw [pure_bind]
      exact collectPages_exc max_pages parts _
    · rw [if_neg hc, if_neg hc]
      unfold pyIntExc
      cases hp : pyInt part with
      | some page =>
        rw [pure_bind]
        exact collectPages_exc max_pages parts _
      | none =>
        rw [pure_bind]
        exact collectPages_exc max_pages parts _

/-- C10: parse_page_range is total.  The exception-explicit model, in
which int() raises ValueError on malformed tokens, always returns ok
with the value of the plain model: the try/except of the source
confines the only raising operation.  Adversarial inputs (reversed
ranges, negative numbers, garbage) evaluate to plain lists. -/
theorem parse_page_range_total :
    (∀ (s : String) (max_pages : ℤ),
      parse_page_range_exc s max_pages = Except.ok (parse_page_range s max_pages)) ∧
    parse_page_range "3-1" 10 = [] ∧
    parse_page_range "-5" 10 = [] ∧
    parse_page_range "2, ???, x-y, 5" 10 = [1, 4] := by
  refine ⟨fun s m => ?_, by decide, by decide, by decide⟩
  unfold parse_page_range_exc parse_page_range collectPages
  rw [bind_pure_comp]
  rw [collectPages_exc]
  rfl

lemma applyMasksGo_geometry (m : Masker) (blur : ℤ → PILImage → PILImage)
    (img : PILImage) (mt : MaskType) :
    ∀ (regions : List Region) (result : PILImage),
      (m.applyMasksGo blur img mt regions result).width = result.width ∧
      (m.applyMasksGo blur img mt regions result).height = result.height ∧
      (m.applyMasksGo blur img mt regions result).mode = result.mode
  | [], _ => ⟨rfl, rfl, rfl⟩
  | region :: rest, result => by
    show (m.applyMasksGo blur img mt (region :: rest) result).width = _ ∧ _ ∧ _
    unfold Masker.applyMasksGo
    by_cases hdeg : (clampBox img region.box).right ≤ (clampBox img region.box).left ∨
        (clampBox img region.box).bottom ≤ (clampBox img region.box).top
    · simp only [if_pos hdeg]
      exact applyMasksGo_geometry m blur img mt rest result
    · simp only [if_neg hdeg]
      by_cases hblur : mt = MaskType.blur
      · simp only [if_pos hblur]
        exact applyMasksGo_geometry m blur img mt rest _
      · simp only [if_neg hblur]
        exact applyMasksGo_geometry m blur img mt rest _

lemma applyMasksGo_pixel_const (m : Masker) (blur : ℤ → PILImage → PILImage)
    (img : PILImage) (mt : MaskType) (hmt : mt ≠ MaskType.blur) :
    ∀ (regions : List Region) (result : PILImage) (px py : Nat),
      result.pixel px py = maskFillColor mt →
      (m.applyMasksGo blur img mt regions result).pixel px py = maskFillColor mt
  | [], _, _, _, h => h
  | region :: rest, result, px, py, h => by
    unfold Masker.applyMasksGo
    by_cases hdeg : (clampBox img region.box).right ≤ (clampBox img region.box).left ∨
        (clampBox img region.box).bottom ≤ (clampBox img region.box).top
    · simp only [if_pos hdeg]
      exact applyMasksGo_pixel_const m blur img mt hmt rest result px py h
    · simp only [if_neg hdeg, if_neg hmt]
      refine applyMasksGo_pixel_const m blur img mt hmt rest _ px py ?_
      simp only [PILImage.fillRect]
      split
      · rfl
      · exact h

lemma applyMasksGo_pixel_outside (m : Masker) (blur : ℤ → PILImage → PILImage)
    (img : PILImage) (mt : MaskType) (hmt : mt ≠ MaskType.blur) :
    ∀ (regions : List Region) (result : PILImage) (px py : Nat),
      (∀ r ∈ regions, strictlyOutside (clampBox img r.box) px py) →
      (m.applyMasksGo blur img mt regions result).pixel px py = result.pixel px py
  | [], _, _, _, _ => rfl
  | region :: rest, result, px, py, hout => by
    unfold Masker.applyMasksGo
    by_cases hdeg : (clampBox img region.box).right ≤ (clampBox img region.box).left ∨
        (clampBox img region.box).bottom ≤ (clampBox img region.box).top
    · simp only [if_pos hdeg]
      exact applyMasksGo_pixel_outside m blur img mt hmt rest result px py
        (fun r hr => hout r (List.mem_cons.mpr (Or.inr hr)))
    · simp only [if_neg hdeg, if_neg hmt]
      rw [applyMasksGo_pixel_outside m blur img mt hmt rest _ px py
        (fun r hr => hout r (List.mem_cons.mpr (Or.inr hr)))]
      have hhead := hout region (List.mem_cons.mpr (Or.inl rfl))
      simp only [PILImage.fillRect]
      rw [if_neg]
      rcases hhead with h | h | h | h
      · intro hc; omega
      · intro hc; omega
      · intro hc; omega
      · intro hc; omega

lemma applyMasksGo_pixel_inside (m : Masker) (blur : ℤ → PILImage → PILImage)
    (img : PILImage) (mt : MaskType) (hmt : mt ≠ MaskType.blur) :
    ∀ (regions : List Region) (result : PILImage) (px py : Nat),
      (∃ r ∈ regions, strictlyInside (clampBox img r.box) px py) →
      (m.applyMasksGo blur img mt regions result).pixel px py = maskFillColor mt
  | [], _, _, _, hin => absurd hin (by simp)
  | region :: rest, result, px, py, hin => by
    rcases hin with ⟨r, hr, hrin⟩
    rcases List.mem_cons.mp hr with rfl | hr
    · unfold Masker.applyMasksGo
      obtain ⟨h1, h2, h3, h4⟩ := hrin
      rw [if_neg (by omega :
        ¬((clampBox img r.box).right ≤ (clampBox img r.box).left ∨
          (clampBox img r.box).bottom ≤ (clampBox img r.box).top))]
      simp only [if_neg hmt]
      refine applyMasksGo_pixel_const m blur img mt hmt rest _ px py ?_
      simp only [PILImage.fillRect]
      rw [if_pos (by omega :
        (clampBox img r.box).left ≤ (px : ℤ) ∧ (px : ℤ) ≤ (clampBox img r.box).right ∧
        (clampBox img r.box).top ≤ (py : ℤ) ∧ (py : ℤ) ≤ (clampBox img r.box).bottom)]
    · unfold Masker.applyMasksGo
      by_cases hdeg : (clampBox img region.box).right ≤ (clampBox img region.box).left ∨
          (clampBox img region.box).bottom ≤ (clampBox img region.box).top
      · simp only [if_pos hdeg]
        exact applyMasksGo_pixel_inside m blur img mt hmt rest result px py ⟨r, hr, hrin⟩
      · simp only [if_neg hdeg, if_neg hmt]
        exact applyMasksGo_pixel_inside m blur img mt hmt rest _ px py ⟨r, hr, hrin⟩

/-- C1: with mask type black every pixel strictly inside the clamped
box of some region ends pure black, and every pixel strictly outside
all clamped boxes keeps the value of the input raster; with mask type
white the same statement holds with pure white (maskFillColor gives
colorBlack for black and colorWhite for white). -/
theorem apply_masks_black_white (m : Masker) (blur : ℤ → PILImage → PILImage)
    (img : PILImage) (regions : List Region) (mt : MaskType)
    (hmt : mt = MaskType.black ∨ mt = MaskType.white) (px py : Nat) :
    ((∃ r ∈ regions, strictlyInside (clampBox img r.box) px py) →
      (m.apply_masks blur img regions mt).pixel px py = maskFillColor mt) ∧
    ((∀ r ∈ regions, strictlyOutside (clampBox img r.box) px py) →
      (m.apply_masks blur img regions mt).pixel px py = img.pixel px py) := by
  have hne : mt ≠ MaskType.blur := by rcases hmt with rfl | rfl <;> intro h <;> cases h
  constructor
  · intro hin
    exact applyMasksGo_pixel_inside m blur img mt hne regions img.copy px py hin
  · intro hout
    exact applyMasksGo_pixel_outside m blur img mt hne regions img.copy px py hout

/-- Witness for C1 at a concrete raster, region, and pixel pair. -/
theorem apply_masks_black_white_witness :
    ((MaskType.black = MaskType.black ∨ MaskType.black = MaskType.white) ∧
      (∃ r ∈ [Region.mk 1 1 2 2], strictlyInside (clampBox testImg r.box) 2 2)) ∧
    (testMasker.apply_masks blurId testImg [Region.mk 1 1 2 2] MaskType.black).pixel 2 2 =
      maskFillColor MaskType.black :=
  ⟨⟨Or.inl rfl, by decide⟩,
    (apply_masks_black_white testMasker blurId testImg [Region.mk 1 1 2 2]
      MaskType.black (Or.inl rfl) 2 2).1 (by decide)⟩

/-- C9: apply_masks preserves the width, the height and the color mode
of the input raster, for every mask type and every blur collaborator;
in this pure embedding, the input raster itself is untouched since the
masking starts from a copy. -/
theorem apply_masks_preserves_geometry (m : Masker) (blur : ℤ → PILImage → PILImage)
    (img : PILImage) (regions : List Region) (mt : MaskType) :
    (m.apply_masks blur img regions mt).width = img.width ∧
    (m.apply_masks blur img regions mt).height = img.height ∧
    (m.apply_masks blur img regions mt).mode = img.mode :=
  applyMasksGo_geometry m blur img mt regions img.copy

lemma applyMasksGo_cons_skip (m : Masker) (blur : ℤ → PILImage → PILImage)
    (img : PILImage) (mt : MaskType) (region : Region) (rest : List Region)
    (result : PILImage)
    (hdeg : (clampBox img region.box).right ≤ (clampBox img region.box).left ∨
      (clampBox img region.box).bottom ≤ (clampBox img region.box).top) :
    m.applyMasksGo blur img mt (region :: rest) result =
      m.applyMasksGo blur img mt rest result := by
  conv_lhs => unfold Masker.applyMasksGo
  simp only [if_pos hdeg]

lemma applyMasksGo_cons_blur (m : Masker) (blur : ℤ → PILImage → PILImage)
    (img : PILImage) (region : Region) (rest : List Region) (result : PILImage)
    (hdeg : ¬((clampBox img region.box).right ≤ (clampBox img region.box).left ∨
      (clampBox img region.box).bottom ≤ (clampBox img region.box).top)) :
    m.applyMasksGo blur img MaskType.blur (region :: rest) result =
      m.applyMasksGo blur img MaskType.blur rest
        (result.paste (blur m.blur_radius (result.crop (clampBox img region.box)))
          (clampBox img region.box)) := by
  conv_lhs => unfold Masker.applyMasksGo
  simp only [if_neg hdeg]
  simp

lemma applyMasksGo_cons_fill (m : Masker) (blur : ℤ → PILImage → PILImage)
    (img : PILImage) (mt : MaskType) (region : Region) (rest : List Region)
    (result : PILImage)
    (hdeg : ¬((clampBox img region.box).right ≤ (clampBox img region.box).left ∨
      (clampBox img region.box).bottom ≤ (clampBox img region.box).top))
    (hmt : mt ≠ MaskType.blur) :
    m.applyMasksGo blur img mt (region :: rest) result =
      m.applyMasksGo blur img mt rest
        (result.fillRect (clampBox img region.box) (maskFillColor mt)) := by
  conv_lhs => unfold Masker.applyMasksGo
  simp only [if_neg hdeg, if_neg hmt]

lemma applyMasksGo_filter (m : Masker) (blur : ℤ → PILImage → PILImage)
    (img : PILImage) (mt : MaskType) :
    ∀ (regions : List Region) (result : PILImage),
      m.applyMasksGo blur img mt regions result =
      m.applyMasksGo blur img mt (regions.filter (fun r =>
        !(decide ((clampBox img r.box).right ≤ (clampBox img r.box).left ∨
          (clampBox img r.box).bottom ≤ (clampBox img r.box).top)))) result
  | [], _ => rfl
  | region :: rest, result => by
    rw [List.filter_cons]
    by_cases hdeg : (clampBox img region.box).right ≤ (clampBox img region.box).left ∨
        (clampBox img region.box).bottom ≤ (clampBox img region.box).top
    · rw [if_neg (by simp [hdeg])]
      rw [applyMasksGo_cons_skip m blur img mt region rest result hdeg]
      exact applyMasksGo_filter m blur img mt rest result
    · rw [if_pos (by simp [hdeg])]
      by_cases hblur : mt = MaskType.blur
      · subst hblur
        rw [applyMasksGo_cons_blur m blur img region rest result hdeg,
          applyMasksGo_cons_blur m blur img region _ result hdeg]
        exact applyMasksGo_filter m blur img MaskType.blur rest _
      · rw [applyMasksGo_cons_fill m blur img mt region rest result hdeg hblur,
          applyMasksGo_cons_fill m blur img mt region _ result hdeg hblur]
        exact applyMasksGo_filter m blur img mt rest _

/-- C7: a region whose clamped box has non-positive width or height is
skipped without error: apply_masks equals apply_masks on the region
list with the degenerate regions filtered out, and when every region is
degenerate the raster comes back with its pixels unaltered. -/
theorem apply_masks_degenerate (m : Masker) (blur : ℤ → PILImage → PILImage)
    (img : PILImage) (regions : List Region) (mt : MaskType) :
    m.apply_masks blur img regions mt =
      m.apply_masks blur img (regions.filter (fun r =>
        !(decide ((clampBox img r.box).right ≤ (clampBox img r.box).left ∨
          (clampBox img r.box).bottom ≤ (clampBox img r.box).top)))) mt ∧
    ((∀ r ∈ regions, (clampBox img r.box).right ≤ (clampBox img r.box).left ∨
        (clampBox img r.box).bottom ≤ (clampBox img r.box).top) →
      m.apply_masks blur img regions mt = img) := by
  constructor
  · exact applyMasksGo_filter m blur img mt regions img.copy
  · intro hall
    have hfil : regions.filter (fun r =>
        !(decide ((clampBox img r.box).right ≤ (clampBox img r.box).left ∨
          (clampBox img r.box).bottom ≤ (clampBox img r.box).top))) = [] := by
      rw [List.filter_eq_nil_iff]
      intro r hr
      simp [hall r hr]
    calc m.apply_masks blur img regions mt
        = m.apply_masks blur img (regions.filter _) mt :=
          applyMasksGo_filter m blur img mt regions img.copy
      _ = img := by rw [hfil]; rfl

/-- Witness for C7: a fully off-canvas region list leaves the raster
unaltered. -/
theorem apply_masks_degenerate_witness :
    (∀ r ∈ [Region.mk (-5) (-5) 2 2],
      (clampBox testImg r.box).right ≤ (clampBox testImg r.box).left ∨
      (clampBox testImg r.box).bottom ≤ (clampBox testImg r.box).top) ∧
    testMasker.apply_masks blurId testImg [Region.mk (-5) (-5) 2 2] MaskType.blur = testImg :=
  ⟨by decide,
    (apply_masks_degenerate testMasker blurId testImg
      [Region.mk (-5) (-5) 2 2] MaskType.blur).2 (by decide)⟩

/-- C2: redact visits every page index below the page count in
ascending order, masks exactly the pages whose 1-indexed number is a
key of page_regions, appends every resulting raster to the output
sequence in page order, and returns the ValueError of _images_to_pdf
(the EmptyDocument failure of the spec) exactly when the document has
zero pages. -/
theorem redact_spec (m : Masker) (blur : ℤ → PILImage → PILImage)
    (pdf : PdfDocument) (page_regions : ℤ → Option (List Region)) (mt : MaskType) :
    (m.redact blur pdf page_regions mt =
        Except.error (PyErr.valueError "No images to convert") ↔ pdf.pageCount = 0) ∧
    (∀ imgs, m.redact blur pdf page_regions mt = Except.ok imgs →
      imgs.length = pdf.pageCount ∧
      ∀ i, i < pdf.pageCount →
        imgs[i]? = some (match page_regions ((i : ℤ) + 1) with
          | some regions => m.apply_masks blur (pdf.render i m.render_scale) regions mt
          | none => pdf.render i m.render_scale)) := by
  have hlen : (m.redactPages blur pdf page_regions mt).length = pdf.pageCount := by
    simp [Masker.redactPages]
  constructor
  · unfold Masker.redact
    by_cases h0 : (m.redactPages blur pdf page_regions mt).isEmpty
    · rw [if_pos h0]
      have hnil := List.isEmpty_iff.mp h0
      rw [hnil] at hlen
      exact ⟨fun _ => hlen.symm, fun _ => rfl⟩
    · rw [if_neg h0]
      constructor
      · intro h; cases h
      · intro hpc
        exfalso
        apply h0
        rw [List.isEmpty_iff, ← List.length_eq_zero, hlen, hpc]
  · intro imgs h
    unfold Masker.redact at h
    by_cases h0 : (m.redactPages blur pdf page_regions mt).isEmpty
    · rw [if_pos h0] at h; cases h
    · rw [if_neg h0] at h
      have himgs : imgs = m.redactPages blur pdf page_regions mt :=
        (Except.ok.injEq _ _ ▸ h).symm
      subst himgs
      refine ⟨hlen, ?_⟩
      intro i hi
      unfold Masker.redactPages
      rw [List.getElem?_map, List.getElem?_range hi]
      rfl

/-- Witness for C2 at a concrete one-page document with no mask keys. -/
theorem redact_spec_witness :
    testMasker.redact blurId testPdf (fun _ => none) MaskType.black =
      Except.ok [testPdf.render 0 testMasker.render_scale] ∧
    [testPdf.render 0 testMasker.render_scale].length = testPdf.pageCount :=
  ⟨rfl,
    ((redact_spec testMasker blurId testPdf (fun _ => none) MaskType.black).2
      [testPdf.render 0 testMasker.render_scale] rfl).1⟩

/-- C8: redact silently ignores every key of page_regions outside the
1-indexed page range of the document: its result, error behavior
included, is identical when all out-of-range keys are removed. -/
theorem redact_ignores_out_of_range_keys (m : Masker) (blur : ℤ → PILImage → PILImage)
    (pdf : PdfDocument) (page_regions : ℤ → Option (List Region)) (mt : MaskType) :
    m.redact blur pdf page_regions mt =
      m.redact blur pdf
        (fun k => if 1 ≤ k ∧ k ≤ (pdf.pageCount : ℤ) then page_regions k else none) mt := by
  have hpages : m.redactPages blur pdf page_regions mt =
      m.redactPages blur pdf
        (fun k => if 1 ≤ k ∧ k ≤ (pdf.pageCount : ℤ) then page_regions k else none) mt := by
    unfold Masker.redactPages
    apply List.map_congr_left
    intro a ha
    have ha' : a < pdf.pageCount := List.mem_range.mp ha
    have hin : 1 ≤ (a : ℤ) + 1 ∧ (a : ℤ) + 1 ≤ (pdf.pageCount : ℤ) := by omega
    dsimp only
    rw [if_pos hin]
  unfold Masker.redact
  rw [hpages]

lemma scaleRegion_one (r : Region) : scaleRegion 1 r = r := by
  obtain ⟨x, y, w, h⟩ := r
  unfold scaleRegion pyTrunc
  simp [Rat.num_intCast, Rat.den_intCast, Int.tdiv_one]

/-- C3: the masked raster of preview_page at scale 1 is the raster that
redact computes for the same page with page_regions mapping that page
to the same region list (the raster sequence before the RGB encode
conversion): no rescaling happens between preview and commit. -/
theorem preview_commit_parity (m : Masker) (blur : ℤ → PILImage → PILImage)
    (pdf : PdfDocument) (n : ℤ) (regions : List Region) (mt : MaskType)
    (h1 : 1 ≤ n) (h2 : n ≤ (pdf.pageCount : ℤ)) :
    ∃ img, m.preview_page blur pdf n (some regions) mt 1 = Except.ok img ∧
      (m.redactPages blur pdf (fun k => if k = n then some regions else none) mt)[(n - 1).toNat]? =
        some img := by
  have hlt : (n - 1).toNat < pdf.pageCount := by omega
  have hkey : (((n - 1).toNat : ℤ) + 1) = n := by omega
  have hred : (m.redactPages blur pdf (fun k => if k = n then some regions else none) mt)[(n - 1).toNat]? =
      some (m.apply_masks blur (pdf.render (n - 1).toNat m.render_scale) regions mt) := by
    unfold Masker.redactPages
    rw [List.getElem?_map, List.getElem?_range hlt]
    dsimp only [Option.map_some']
    rw [hkey, if_pos rfl]
  unfold Masker.preview_page
  rw [if_neg (by omega : ¬(n < 1 ∨ (pdf.pageCount : ℤ) < n))]
  rw [mul_one]
  dsimp only
  by_cases hre : regions.isEmpty
  · rw [if_pos hre]
    refine ⟨pdf.render (n - 1).toNat m.render_scale, rfl, ?_⟩
    rw [hred, List.isEmpty_iff.mp hre]
    rfl
  · rw [if_neg hre]
    refine ⟨_, rfl, ?_⟩
    have hscale : regions.map (scaleRegion 1) = regions := by
      calc regions.map (scaleRegion 1) = regions.map id :=
            List.map_congr_left (fun a _ => scaleRegion_one a)
        _ = regions := List.map_id regions
    rw [hscale]
    exact hred

/-- Witness for C3 at a concrete document, page and region list. -/
theorem preview_commit_parity_witness :
    ((1 : ℤ) ≤ 1 ∧ (1 : ℤ) ≤ (testPdf.pageCount : ℤ)) ∧
    (∃ img, testMasker.preview_page blurId testPdf 1 (some [Region.mk 0 0 2 2])
        MaskType.black 1 = Except.ok img ∧
      (testMasker.redactPages blurId testPdf
        (fun k => if k = 1 then some [Region.mk 0 0 2 2] else none)
        MaskType.black)[((1 : ℤ) - 1).toNat]? = some img) :=
  ⟨⟨by decide, by decide⟩,
    preview_commit_parity testMasker blurId testPdf 1 [Region.mk 0 0 2 2]
      MaskType.black (by decide) (by decide)⟩

lemma handle_image_click_second (masker : Masker) (blur : ℤ → PILImage → PILImage)
    (overlay : PILImage → List Region → Option (ℤ × ℤ) → PILImage)
    (st : AppState) (pdf_file : Option PdfDocument) (mt : MaskType)
    (x1 y1 x2 y2 : ℤ)
    (hpdf : pdf_file.isSome = true) (hbase : st.base_image.isSome = true)
    (hcs : st.click_start = some (x1, y1)) :
    (handle_image_click masker blur overlay st pdf_file mt (x2, y2)).1 =
      { st with
        regions := if 5 < |x2 - x1| ∧ 5 < |y2 - y1|
          then st.regions ++ [Region.mk (min x1 x2) (min y1 y2) |x2 - x1| |y2 - y1|]
          else st.regions,
        click_start := none } := by
  obtain ⟨cp, regs, bi, cs⟩ := st
  have hcs2 : cs = some (x1, y1) := hcs
  have hb2 : bi.isSome = true := hbase
  cases pdf_file with
  | none => simp at hpdf
  | some pdf =>
    cases bi with
    | none => simp at hb2
    | some base =>
      subst hcs2
      rfl

lemma handle_image_click_first (masker : Masker) (blur : ℤ → PILImage → PILImage)
    (overlay : PILImage → List Region → Option (ℤ × ℤ) → PILImage)
    (st : AppState) (pdf_file : Option PdfDocument) (mt : MaskType) (x2 y2 : ℤ)
    (hpdf : pdf_file.isSome = true) (hbase : st.base_image.isSome = true)
    (hcs : st.click_start = none) :
    (handle_image_click masker blur overlay st pdf_file mt (x2, y2)).1 =
      { st with click_start := some (x2, y2) } := by
  obtain ⟨cp, regs, bi, cs⟩ := st
  have hcs2 : cs = none := hcs
  have hb2 : bi.isSome = true := hbase
  cases pdf_file with
  | none => simp at hpdf
  | some pdf =>
    cases bi with
    | none => simp at hb2
    | some base =>
      subst hcs2
      rfl

/-- C4: on a second click the session appends
Region(min x, min y, abs dx, abs dy) exactly when both sides exceed 5
pixels and clears the pending corner in every case; the click sequence
(10,10),(50,60) appends exactly Region(10,10,40,50) and the sequence
(10,10),(10,10) appends nothing. -/
theorem handle_image_click_spec (masker : Masker) (blur : ℤ → PILImage → PILImage)
    (overlay : PILImage → List Region → Option (ℤ × ℤ) → PILImage)
    (st : AppState) (pdf_file : Option PdfDocument) (mt : MaskType)
    (x1 y1 x2 y2 : ℤ)
    (hpdf : pdf_file.isSome = true) (hbase : st.base_image.isSome = true) :
    (st.click_start = some (x1, y1) →
      (handle_image_click masker blur overlay st pdf_file mt (x2, y2)).1.regions =
        (if 5 < |x2 - x1| ∧ 5 < |y2 - y1|
          then st.regions ++ [Region.mk (min x1 x2) (min y1 y2) |x2 - x1| |y2 - y1|]
          else st.regions) ∧
      (handle_image_click masker blur overlay st pdf_file mt (x2, y2)).1.click_start = none) ∧
    (st.click_start = none →
      (handle_image_click masker blur overlay
          (handle_image_click masker blur overlay st pdf_file mt (10, 10)).1
          pdf_file mt (50, 60)).1.regions = st.regions ++ [Region.mk 10 10 40 50] ∧
      (handle_image_click masker blur overlay
          (handle_image_click masker blur overlay st pdf_file mt (10, 10)).1
          pdf_file mt (10, 10)).1.regions = st.regions) := by
  constructor
  · intro hcs
    rw [handle_image_click_second masker blur overlay st pdf_file mt x1 y1 x2 y2 hpdf hbase hcs]
    exact ⟨rfl, rfl⟩
  · intro hcs
    rw [handle_image_click_first masker blur overlay st pdf_file mt 10 10 hpdf hbase hcs]
    constructor
    · rw [handle_image_click_second masker blur overlay
        { st with click_start := some (10, 10) } pdf_file mt 10 10 50 60 hpdf hbase rfl]
      show (if 5 < |(50 : ℤ) - 10| ∧ 5 < |(60 : ℤ) - 10|
          then st.regions ++ [Region.mk (min 10 50) (min 10 60) |(50 : ℤ) - 10| |(60 : ℤ) - 10|]
          else st.regions) = st.regions ++ [Region.mk 10 10 40 50]
      rw [if_pos (by decide)]
      have hr : Region.mk (min (10 : ℤ) 50) (min (10 : ℤ) 60) |(50 : ℤ) - 10| |(60 : ℤ) - 10| =
          Region.mk 10 10 40 50 := by decide
      rw [hr]
    · rw [handle_image_click_second masker blur overlay
        { st with click_start := some (10, 10) } pdf_file mt 10 10 10 10 hpdf hbase rfl]
      show (if 5 < |(10 : ℤ) - 10| ∧ 5 < |(10 : ℤ) - 10|
          then st.regions ++ [Region.mk (min 10 10) (min 10 10) |(10 : ℤ) - 10| |(10 : ℤ) - 10|]
          else st.regions) = st.regions
      rw [if_neg (by decide)]

/-- Witness for C4 at a concrete session state. -/
theorem handle_image_click_spec_witness :
    ((some testPdf).isSome = true ∧
      (AppState.mk 1 [] (some testImg) none).base_image.isSome = true ∧
      (AppState.mk 1 [] (some testImg) none).click_start = none) ∧
    (handle_image_click testMasker blurId overlayId
        (handle_image_click testMasker blurId overlayId
          (AppState.mk 1 [] (some testImg) none) (some testPdf) MaskType.black (10, 10)).1
        (some testPdf) MaskType.black (50, 60)).1.regions =
      (AppState.mk 1 [] (some testImg) none).regions ++ [Region.mk 10 10 40 50] :=
  ⟨⟨rfl, rfl, rfl⟩,
    ((handle_image_click_spec testMasker blurId overlayId
      (AppState.mk 1 [] (some testImg) none) (some testPdf) MaskType.black
      0 0 0 0 rfl rfl).2 rfl).1⟩

/-- A concrete session state with one selected region, a pending corner
and a cached base raster, used for the C6 input. -/
def c6State : AppState := ⟨1, [Region.mk 1 2 3 4], some testImg, some (5, 6)⟩

/-- C6 as stated fails on the code: change_mask_page resets
current_page, regions and click_start before validating the page
number, so the failed change to page 99 of a 1-page document does not
leave the session state unchanged. -/
theorem change_mask_page_mutates_on_failure :
    ¬((change_mask_page testMasker blurId c6State (some testPdf) 99).1.regions =
        c6State.regions ∧
      (change_mask_page testMasker blurId c6State (some testPdf) 99).1.current_page =
        c6State.current_page ∧
      (change_mask_page testMasker blurId c6State (some testPdf) 99).1.click_start =
        c6State.click_start) := by
  intro h
  obtain ⟨h1, _, _⟩ := h
  have he : (change_mask_page testMasker blurId c6State (some testPdf) 99).1.regions = [] := rfl
  rw [he] at h1
  exact absurd h1 (by decide)

/-- C6 amended: a page change to an invalid page number returns an
error outcome (no preview image) and leaves base_image alone, but first
unconditionally sets current_page to the requested number and clears
regions and click_start; the reset happens before validation, so the
prior regions, current page and pending corner are lost. -/
theorem change_mask_page_invalid (masker : Masker) (blur : ℤ → PILImage → PILImage)
    (st : AppState) (pdf : PdfDocument) (n : ℤ)
    (h : n < 1 ∨ (pdf.pageCount : ℤ) < n) :
    (change_mask_page masker blur st (some pdf) n).1 =
      { st with current_page := n, regions := [], click_start := none } ∧
    (change_mask_page masker blur st (some pdf) n).2.1 = none := by
  obtain ⟨cp, regs, bi, cs⟩ := st
  unfold change_mask_page Masker.preview_page
  dsimp only
  rw [if_pos h]
  exact ⟨rfl, rfl⟩

/-- Witness for the amended C6 at the concrete C6 input. -/
theorem change_mask_page_invalid_witness :
    ((99 : ℤ) < 1 ∨ (testPdf.pageCount : ℤ) < 99) ∧
    (change_mask_page testMasker blurId c6State (some testPdf) 99).1 =
      { c6State with current_page := 99, regions := [], click_start := none } :=
  ⟨Or.inr (by decide),
    (change_mask_page_invalid testMasker blurId c6State testPdf 99 (Or.inr (by decide))).1⟩

end Fileskadis
